import Mathlib

/-!
Verification of the movie recommendation notebook (`CC-Project.ipynb`).

The notebook is a linear script: it loads `movies.csv` and `ratings.csv`,
pivots the ratings into a movie × user matrix (missing entries filled with 0),
keeps the columns of users with more than 50 ratings, fits a brute-force
cosine `NearestNeighbors` index over the rows, trains two throwaway
classifiers on random labels, and answers queries by fuzzy-matching a title
and listing the nearest movies.

This file shallowly embeds that script.  CSV rows become Lean structures,
dataframe operations become list functions, and the two library calls whose
behaviour the script depends on (`sklearn` brute-force cosine k-nearest
neighbours and `statistics.variance`) are embedded from their documented
semantics.  `difflib.SequenceMatcher.ratio` and `sklearn.svm.SVC` are opaque
numerical routines; they are taken as parameters, so every theorem below
holds for an arbitrary similarity ratio and an arbitrary SVM.

Cosine distances involve square roots, which have no exact rational
representation.  Each distance value `1 - q·v / (‖q‖‖v‖)` is therefore
represented by the rational key `simKey q v = sgn(q·v) · (q·v)² / (‖q‖²‖v‖²)`,
a strictly decreasing image of the distance: smaller distance ↔ larger key.
The lemma `cosDistR_le_iff_simKey` proves this correspondence against the
real-valued cosine distance, so ordering statements about keys are ordering
statements about the true distances.
-/

namespace MovieRec

/-- One row of `ratings.csv`. -/
structure RatingRow where
  userId : Nat
  movieId : Nat
  rating : ℚ
deriving DecidableEq

/-- One row of `movies.csv`. -/
structure MovieRow where
  movieId : Nat
  title : String
deriving DecidableEq

/-! ### Vector arithmetic for rating rows -/

/-- Dot product of two rating vectors (rows of the pivoted matrix). -/
def dot (u v : List ℚ) : ℚ := (List.zipWith (fun a b => a * b) u v).sum

/-- Squared Euclidean norm of a rating vector. -/
def sqNorm (v : List ℚ) : ℚ := dot v v

/-- Exact rational key representing the cosine distance from query `q` to
row `v`, as computed by `NearestNeighbors(metric='cosine')`.  The true
distance is `1 - q·v/(‖q‖‖v‖)` (with similarity 0 when either vector is
zero, matching sklearn's normalisation of zero vectors); `simKey` is
`sgn(cos) · cos²`, a strictly increasing image of the cosine similarity,
hence a strictly decreasing image of the distance. -/
def simKey (q v : List ℚ) : ℚ :=
  if sqNorm q = 0 ∨ sqNorm v = 0 then 0
  else
    (if dot q v < 0 then -(dot q v ^ 2) else dot q v ^ 2) / (sqNorm q * sqNorm v)

/-- The rows of the fitted matrix, tagged with their positional index and
their similarity key to the query vector. -/
def neighborKeys (q : List ℚ) (rows : List (List ℚ)) : List (ℕ × ℚ) :=
  (List.range rows.length).map (fun i => (i, simKey q (rows.getD i [])))

/-- Order in which `kneighbors` reports rows: ascending cosine distance
(that is, descending key), ties broken by the smaller row index. -/
def NeighborLe (a b : ℕ × ℚ) : Prop := b.2 < a.2 ∨ (b.2 = a.2 ∧ a.1 ≤ b.1)

/-- Ascending cosine distance (descending key) only: the comparison used by
the script's `sorted(..., key=lambda x: x[1])` re-sort of the
`kneighbors` output. -/
def DistPairLe (a b : ℕ × ℚ) : Prop := b.2 ≤ a.2

instance : DecidableRel NeighborLe := fun a b =>
  inferInstanceAs (Decidable (b.2 < a.2 ∨ (b.2 = a.2 ∧ a.1 ≤ b.1)))

instance : DecidableRel DistPairLe := fun a b =>
  inferInstanceAs (Decidable (b.2 ≤ a.2))

instance : IsTotal (ℕ × ℚ) NeighborLe where
  total a b := by
    unfold NeighborLe
    rcases lt_trichotomy a.2 b.2 with h | h | h
    · exact Or.inr (Or.inl h)
    · rcases Nat.le_total a.1 b.1 with h1 | h1
      · exact Or.inl (Or.inr ⟨h.symm, h1⟩)
      · exact Or.inr (Or.inr ⟨h, h1⟩)
    · exact Or.inl (Or.inl h)

instance : IsTrans (ℕ × ℚ) NeighborLe where
  trans a b c hab hbc := by
    unfold NeighborLe at *
    rcases hab with h1 | ⟨h1, h1i⟩ <;> rcases hbc with h2 | ⟨h2, h2i⟩
    · exact Or.inl (h2.trans h1)
    · exact Or.inl (h2 ▸ h1)
    · exact Or.inl (h1 ▸ h2)
    · exact Or.inr ⟨h2.trans h1, le_trans h1i h2i⟩

instance : IsTotal (ℕ × ℚ) DistPairLe where
  total a b := le_total b.2 a.2

instance : IsTrans (ℕ × ℚ) DistPairLe where
  trans _ _ _ hab hbc := le_trans hbc hab

/-- `knn.kneighbors(q, k)` for the brute-force cosine index: all rows sorted
by ascending cosine distance, ties broken by row index; the caller takes
the first `k`. -/
def kneighborsSorted (q : List ℚ) (rows : List (List ℚ)) : List (ℕ × ℚ) :=
  List.insertionSort NeighborLe (neighborKeys q rows)

/-! ### Preprocessing (`load_and_preprocess_data`) -/

/-- Number of ratings a user contributed: `ratings.groupby('userId')['rating'].count()`. -/
def userRatingCount (ratings : List RatingRow) (u : ℕ) : ℕ :=
  (ratings.filter (fun r => r.userId == u)).length

/-- The ratings recorded for one `(movieId, userId)` cell of the pivot. -/
def pairRatings (ratings : List RatingRow) (m u : ℕ) : List ℚ :=
  ((ratings.filter (fun r => r.movieId == m && r.userId == u)).map (fun r => r.rating))

/-- One cell of `ratings.pivot_table(index='movieId', columns='userId',
values='rating').fillna(0)`: the mean of the cell's ratings (pandas'
default `aggfunc`), or `0` when the cell has no rating. -/
def pivotEntry (ratings : List RatingRow) (m u : ℕ) : ℚ :=
  if (pairRatings ratings m u).length = 0 then 0
  else (pairRatings ratings m u).sum / (pairRatings ratings m u).length

/-- The distinct movie ids appearing in `ratings.csv`, in ascending order:
the row index of the pivot table. -/
def pivotMovieIds (ratings : List RatingRow) : List ℕ :=
  List.insertionSort (fun a b => a ≤ b) ((ratings.map (fun r => r.movieId)).dedup)

/-- The user columns kept by the filter: users with strictly more than 50
ratings, in ascending order (pandas sorts both the pivot columns and the
groupby index). -/
def keptUserIds (ratings : List RatingRow) : List ℕ :=
  (List.insertionSort (fun a b => a ≤ b) ((ratings.map (fun r => r.userId)).dedup)).filter
    (fun u => 50 < userRatingCount ratings u)

/-- The preprocessed dataframe `final_dataset` after `reset_index`:
the `movieId` column, the kept user columns, and the rating matrix
(`final_dataset.iloc[:, 1:]`, one row per movie). -/
structure FinalData where
  movieIds : List ℕ
  userIds : List ℕ
  matrix : List (List ℚ)
deriving DecidableEq

/-- The pivot/filter pipeline of `load_and_preprocess_data`. -/
def buildFinalDataset (ratings : List RatingRow) : FinalData :=
  ⟨pivotMovieIds ratings, keptUserIds ratings,
    (pivotMovieIds ratings).map (fun m =>
      (keptUserIds ratings).map (fun u => pivotEntry ratings m u))⟩

/-- The working directory as seen by `pd.read_csv`: each CSV is either
present (with its parsed rows) or missing. -/
structure Files where
  moviesCsv : Option (List MovieRow)
  ratingsCsv : Option (List RatingRow)

/-- `load_and_preprocess_data()`: reads both CSVs and preprocesses them.
A missing file raises `FileNotFoundError`, which the function catches,
printing an error and returning `(None, None, None)` — modelled as `none`. -/
def load_and_preprocess_data (fs : Files) :
    Option (List MovieRow × List RatingRow × FinalData) :=
  match fs.moviesCsv, fs.ratingsCsv with
  | some movies, some ratings => some (movies, ratings, buildFinalDataset ratings)
  | _, _ => none

/-- `create_recommendation_model`: builds `csr_data` from the rating columns
and fits the brute-force cosine index on it.  The fitted index is the
stored matrix itself, so the model is represented by `csr_data`. -/
def create_recommendation_model (final_dataset : FinalData) : List (List ℚ) :=
  final_dataset.matrix

/-! ### `difflib.get_close_matches` and `statistics.variance` -/

/-- Order used by `difflib.get_close_matches`' `heapq.nlargest` over
`(score, title)` pairs: descending score, ties by descending title. -/
def ScoreLe (a b : ℚ × String) : Prop := b.1 < a.1 ∨ (a.1 = b.1 ∧ b.2 ≤ a.2)

instance : DecidableRel ScoreLe := fun a b =>
  inferInstanceAs (Decidable (b.1 < a.1 ∨ (a.1 = b.1 ∧ b.2 ≤ a.2)))

instance : IsTotal (ℚ × String) ScoreLe where
  total a b := by
    unfold ScoreLe
    rcases lt_trichotomy a.1 b.1 with h | h | h
    · exact Or.inr (Or.inl h)
    · rcases le_total a.2 b.2 with h1 | h1
      · exact Or.inr (Or.inr ⟨h.symm, h1⟩)
      · exact Or.inl (Or.inr ⟨h, h1⟩)
    · exact Or.inl (Or.inl h)

instance : IsTrans (ℚ × String) ScoreLe where
  trans a b c hab hbc := by
    unfold ScoreLe at *
    rcases hab with h1 | ⟨h1, h1s⟩ <;> rcases hbc with h2 | ⟨h2, h2s⟩
    · exact Or.inl (h2.trans h1)
    · exact Or.inl (h2 ▸ h1)
    · exact Or.inl (h1.symm ▸ h2)
    · exact Or.inr ⟨h1.trans h2, le_trans h2s h1s⟩

/-- `difflib.get_close_matches(word, possibilities, n, cutoff)`,
parameterised by the `SequenceMatcher` similarity ratio: the possibilities
whose ratio reaches the cutoff, best first, truncated to `n`. -/
def get_close_matches (ratio : String → String → ℚ) (word : String)
    (possibilities : List String) (n : ℕ) (cutoff : ℚ) : List String :=
  (((possibilities.filter (fun x => cutoff ≤ ratio word x)).map
      (fun x => (ratio word x, x))).insertionSort ScoreLe).take n |>.map (fun p => p.2)

/-- `statistics.variance`: the sample variance of a list of numbers.
Raises `statistics.StatisticsError` when given fewer than two data
points — modelled as `Except.error`. -/
def variance (l : List ℚ) : Except Unit ℚ :=
  if l.length < 2 then .error ()
  else .ok (((l.map (fun x => (x - l.sum / l.length) ^ 2)).sum) / ((l.length : ℚ) - 1))

/-! ### `get_movie_recommendation` -/

/-- Outcome of a call to `get_movie_recommendation`:
* `noMatch` — `closest_match` was empty; the function prints
  "No matching movie found. Please check your input." and returns `None`;
* `notInDataset` — the matched movie id is not in `final_dataset['movieId']`;
  the function prints "Movie not found in dataset for recommendations." and
  returns `None`;
* `tooFewSamples` — `kneighbors` raised `ValueError` because
  `n_neighbors > n_samples` (uncaught, the script crashes);
* `missingMovieRow` — an `IndexError` from an empty `.values[0]` / `.index[0]`
  lookup (uncaught, the script crashes);
* `lengthMismatch` — `pd.DataFrame(..., index=range(1, n+1))` raised because
  the frame length differs from the index length (uncaught);
* `ok recPairs df varianceOk` — the successful path: `recPairs` is the local
  `rec_movie_indices` (matrix row index and distance key per recommendation),
  `df` the returned dataframe (index, title, distance key per row), and
  `varianceOk` is `true` when `statistics.variance(similarities)` succeeded
  and `false` when it raised `StatisticsError` (caught: the function prints
  "Not enough data to calculate variance." and still returns the frame). -/
inductive GmrResult where
  | noMatch : GmrResult
  | notInDataset : GmrResult
  | tooFewSamples : GmrResult
  | missingMovieRow : GmrResult
  | lengthMismatch : GmrResult
  | ok : List (ℕ × ℚ) → List (ℕ × String × ℚ) → Bool → GmrResult
deriving DecidableEq

/-- A run of `get_movie_recommendation` together with the number of
`knn.kneighbors` invocations it performed. -/
structure GmrRun where
  result : GmrResult
  knnQueries : ℕ
deriving DecidableEq

/-- Whether a run returned a dataframe (rather than `None` or an uncaught
exception). -/
def GmrResult.isOk : GmrResult → Bool
  | .ok _ _ _ => true
  | _ => false

/-- Whether the run's `statistics.variance(similarities)` call raised
`StatisticsError` — caught by the function, which printed the fallback
message instead and returned the dataframe anyway. -/
def GmrResult.varianceFailed : GmrResult → Bool
  | .ok _ _ vo => !vo
  | _ => false

/-- The Distance column of the dataframe returned by a successful run
(in the key representation; empty for unsuccessful runs). -/
def GmrResult.distanceColumn : GmrResult → List ℚ
  | .ok _ df _ => df.map (fun e => e.2.2)
  | _ => []

/-- The loop over `rec_movie_indices`: looks up each recommended row's
`movieId` in `final_dataset` and its title in `movies`; a failed lookup is
an uncaught `IndexError` (`none`). -/
def recommendEntries (movies : List MovieRow) (final_dataset : FinalData) :
    List (ℕ × ℚ) → Option (List (String × ℚ))
  | [] => some []
  | val :: rest =>
    match final_dataset.movieIds.get? val.1 with
    | none => none
    | some rec_movie_id =>
      match movies.find? (fun m => m.movieId == rec_movie_id) with
      | none => none
      | some row =>
        match recommendEntries movies final_dataset rest with
        | none => none
        | some l => some ((row.title, val.2) :: l)

/-- `get_movie_recommendation(movie_name, movies, final_dataset, knn,
csr_data, n_movies_to_recommend)`.  `ratio` is the `SequenceMatcher`
similarity used by `difflib.get_close_matches` (cutoff 0.6, n=1).  The
`kneighbors(csr_data[movie_matrix_idx], n_neighbors+1)` output is re-sorted
by distance (stably, as Python's `sorted`) and `[:0:-1]` drops its first
element and reverses the rest. -/
def get_movie_recommendation (ratio : String → String → ℚ) (movie_name : String)
    (movies : List MovieRow) (final_dataset : FinalData) (csr_data : List (List ℚ))
    (n_movies_to_recommend : ℕ) : GmrRun :=
  match get_close_matches ratio movie_name (movies.map (fun m => m.title)) 1 (3/5) with
  | [] => ⟨.noMatch, 0⟩
  | selected_movie :: _ =>
    match movies.find? (fun m => m.title == selected_movie) with
    | none => ⟨.missingMovieRow, 0⟩
    | some row =>
      if row.movieId ∈ final_dataset.movieIds then
        if csr_data.length < n_movies_to_recommend + 1 then ⟨.tooFewSamples, 1⟩
        else
          let movie_matrix_idx := final_dataset.movieIds.indexOf row.movieId
          let q := csr_data.getD movie_matrix_idx []
          let knnOut := (kneighborsSorted q csr_data).take (n_movies_to_recommend + 1)
          let rec_movie_indices := ((knnOut.insertionSort DistPairLe).drop 1).reverse
          match recommendEntries movies final_dataset rec_movie_indices with
          | none => ⟨.missingMovieRow, 1⟩
          | some entries =>
            if entries.length = n_movies_to_recommend then
              let vo := match variance (rec_movie_indices.map (fun p => p.2)) with
                        | .ok _ => true
                        | .error _ => false
              ⟨.ok rec_movie_indices
                ((List.range' 1 n_movies_to_recommend).zip entries) vo, 1⟩
            else ⟨.lengthMismatch, 1⟩
      else ⟨.notInDataset, 0⟩

/-! ### `train_models` -/

/-- `sklearn.metrics`: count of positions predicted `true` that are `true`. -/
def truePositives (yTrue yPred : List Bool) : ℕ :=
  (List.zipWith (fun a b => a && b) yTrue yPred).count true

/-- `precision_score(y_true, y_pred, zero_division=1)`. -/
def precision_score (yTrue yPred : List Bool) : ℚ :=
  if yPred.count true = 0 then 1
  else (truePositives yTrue yPred : ℚ) / (yPred.count true : ℚ)

/-- `recall_score(y_true, y_pred, zero_division=1)`. -/
def recall_score (yTrue yPred : List Bool) : ℚ :=
  if yTrue.count true = 0 then 1
  else (truePositives yTrue yPred : ℚ) / (yTrue.count true : ℚ)

/-- `train_test_split(X, y, test_size=0.2, random_state=42)`: shuffles the
samples by the seed-42 permutation (taken here as the parameter `perm`,
a list of indices) and splits off `ceil(0.2·n)` test samples from the
front of the shuffled order, the rest being the training set. -/
def train_test_split (X : List (List ℚ)) (y : List Bool) (perm : List ℕ) :
    List (List ℚ) × List (List ℚ) × List Bool × List Bool :=
  let nTest := (X.length + 4) / 5
  let shuffled := perm.map (fun i => (X.getD i [], y.getD i false))
  ((shuffled.drop nTest).map (fun p => p.1), (shuffled.take nTest).map (fun p => p.1),
   (shuffled.drop nTest).map (fun p => p.2), (shuffled.take nTest).map (fun p => p.2))

/-- Squared Euclidean distance, the (order-equivalent image of the) metric of
`KNeighborsClassifier`'s default Minkowski p=2 metric. -/
def sqDist (u v : List ℚ) : ℚ :=
  ((List.zipWith (fun a b => a - b) u v).map (fun x => x ^ 2)).sum

/-- Ascending Euclidean distance, ties by index: the neighbour order of
`KNeighborsClassifier`. -/
def EuclidLe (a b : ℕ × ℚ) : Prop := a.2 < b.2 ∨ (a.2 = b.2 ∧ a.1 ≤ b.1)

instance : DecidableRel EuclidLe := fun a b =>
  inferInstanceAs (Decidable (a.2 < b.2 ∨ (a.2 = b.2 ∧ a.1 ≤ b.1)))

/-- `KNeighborsClassifier(n_neighbors=5).predict` on one test point:
majority vote of the labels of the 5 nearest training points (uniform
weights; a tied vote goes to class `false`, the first class). -/
def knn5Predict (xTrain : List (List ℚ)) (yTrain : List Bool) (x : List ℚ) : Bool :=
  let keyed := (List.range xTrain.length).map (fun i => (i, sqDist x (xTrain.getD i [])))
  let nb := (keyed.insertionSort EuclidLe).take 5
  decide (nb.length < 2 * (nb.map (fun p => yTrain.getD p.1 false)).count true)

/-- One "Precision: …, Recall: …" block printed by `train_models`. -/
structure ModelMetrics where
  modelName : String
  precisionVal : ℚ
  recallVal : ℚ
deriving DecidableEq

/-- `train_models(final_dataset)`: draws random binary labels (`labels`, one
per row of the matrix), splits 80/20 with seed 42 (`perm`), fits an SVM
(`svmPredict`, the opaque `SVC().fit(...).predict`) and a 5-nearest-neighbour
classifier on the training part, and prints precision and recall of each on
the test part.  It returns the two fitted models and touches nothing else;
its entire observable output is the two metric blocks. -/
def train_models (final_dataset : FinalData) (labels : List Bool) (perm : List ℕ)
    (svmPredict : List (List ℚ) → List Bool → List (List ℚ) → List Bool) :
    List ModelMetrics :=
  let split := train_test_split final_dataset.matrix labels perm
  let xTrain := split.1
  let xTest := split.2.1
  let yTrain := split.2.2.1
  let yTest := split.2.2.2
  let predSvm := svmPredict xTrain yTrain xTest
  let predKnn := xTest.map (knn5Predict xTrain yTrain)
  [⟨"SVM", precision_score yTest predSvm, recall_score yTest predSvm⟩,
   ⟨"K-NN", precision_score yTest predKnn, recall_score yTest predKnn⟩]

/-! ### `main` -/

/-- Everything `main` produces: whether loading failed (early return), whether
the nearest-neighbour model was fitted, the classifier metrics printed by
`train_models`, and the result of each movie query processed from the
input loop. -/
structure MainOut where
  loadFailed : Bool
  modelFitted : Bool
  metrics : List ModelMetrics
  queryOutputs : List (String × GmrRun)
deriving DecidableEq

/-- The `while True` input loop of `main`: each entered name is answered by
`get_movie_recommendation(..., 10)` until `"quit"` (case-insensitive) stops
the loop. -/
def processQueries (ratio : String → String → ℚ) (movies : List MovieRow)
    (final_dataset : FinalData) (csr_data : List (List ℚ)) :
    List String → List (String × GmrRun)
  | [] => []
  | name :: rest =>
    if name.toLower = "quit" then []
    else (name, get_movie_recommendation ratio name movies final_dataset csr_data 10)
          :: processQueries ratio movies final_dataset csr_data rest

/-- `main()`: load and preprocess (returning immediately when that failed),
fit the recommendation model, run `train_models` (and the side-effect-free
`visualize_datasets`), then answer queries from the input loop. -/
def main_run (fs : Files) (labels : List Bool) (perm : List ℕ)
    (svmPredict : List (List ℚ) → List Bool → List (List ℚ) → List Bool)
    (ratio : String → String → ℚ) (inputs : List String) : MainOut :=
  match load_and_preprocess_data fs with
  | none => ⟨true, false, [], []⟩
  | some (movies, _ratings, final_dataset) =>
    let csr_data := create_recommendation_model final_dataset
    let metrics := train_models final_dataset labels perm svmPredict
    ⟨false, true, metrics, processQueries ratio movies final_dataset csr_data inputs⟩

/-- The same pipeline with the `train_models` call deleted: the comparison
program of the noninterference claim ("when train_models is not run at
all").  Only the recommendation outputs remain. -/
def main_run_without_training (fs : Files) (ratio : String → String → ℚ)
    (inputs : List String) : List (String × GmrRun) :=
  match load_and_preprocess_data fs with
  | none => []
  | some (movies, _ratings, final_dataset) =>
    processQueries ratio movies final_dataset
      (create_recommendation_model final_dataset) inputs

/-! ### Specification-side definitions

`cosSimR`/`cosDistR` are the real-valued cosine similarity and distance that
sklearn computes; they are noncomputable (square roots) and used only in
theorem statements and proofs.  `simKey` above is their exact rational
order-representation; the bridge is proved in `cosDistR_le_iff_simKey`. -/

/-- Sign-preserving square, a strictly increasing map on the reals:
`simKey q v` equals `signSq` of the cosine similarity. -/
noncomputable def signSq (x : ℝ) : ℝ := if x < 0 then -(x ^ 2) else x ^ 2

/-- The cosine similarity `q·v / (‖q‖‖v‖)` over the reals, with similarity 0
when either vector is zero (sklearn normalises zero vectors to zero). -/
noncomputable def cosSimR (q v : List ℚ) : ℝ :=
  if sqNorm q = 0 ∨ sqNorm v = 0 then 0
  else (dot q v : ℝ) / (Real.sqrt ((sqNorm q : ℚ) : ℝ) * Real.sqrt ((sqNorm v : ℚ) : ℝ))

/-- The cosine distance `1 - cos(q, v)` reported by `kneighbors`. -/
noncomputable def cosDistR (q v : List ℚ) : ℝ := 1 - cosSimR q v

/-- The title printed for the recommendation whose matrix row index is `i`:
`movies.iloc[movies[movies['movieId'] == final_dataset.iloc[i]['movieId']].index[0]]['title']`
(an arbitrary default when the lookups fail; the failing case is the
`IndexError` branch of `recommendEntries`). -/
def titleAt (movies : List MovieRow) (final_dataset : FinalData) (i : ℕ) : String :=
  match movies.find? (fun m => m.movieId == final_dataset.movieIds.getD i 0) with
  | some row => row.title
  | none => ""

/-! ### Concrete data used by the witnesses -/

/-- A similarity ratio giving 1 to equal strings and 0 otherwise. -/
def exRatio : String → String → ℚ := fun a b => if a = b then 1 else 0

/-- A similarity ratio under which nothing is close. -/
def zeroRatio : String → String → ℚ := fun _ _ => 0

/-- Three movies. -/
def exMovies : List MovieRow := [⟨10, "A"⟩, ⟨20, "B"⟩, ⟨30, "C"⟩]

/-- A preprocessed dataset for the three movies with two kept users. -/
def exFinal : FinalData := ⟨[10, 20, 30], [1, 2], [[1, 0], [0, 1], [1, 1]]⟩

/-- A movie whose id is absent from `exFinal`. -/
def soloMovies : List MovieRow := [⟨99, "A"⟩]

/-- A single rating row: user 1 rated movie 5 with 4. -/
def smallRatings : List RatingRow := [⟨1, 5, 4⟩]

/-- Ratings of a single user with 53 ratings (so the user survives the
`> 50` filter) who rated movie 1 twice, with 1.0 and with 2.0. -/
def dupRatings : List RatingRow :=
  ⟨1, 1, 1⟩ :: ⟨1, 1, 2⟩ :: (List.range 51).map (fun i => ⟨1, i + 2, 1⟩)

/-- An SVM stand-in predicting `true` everywhere. -/
def constTrueSvm : List (List ℚ) → List Bool → List (List ℚ) → List Bool :=
  fun _ _ xs => xs.map (fun _ => true)

/-! ### The key/distance correspondence -/

lemma dot_self_nonneg (v : List ℚ) : 0 ≤ dot v v := by
  induction v with
  | nil => simp [dot]
  | cons a l ih =>
    have h : dot (a :: l) (a :: l) = a * a + dot l l := by simp [dot]
    nlinarith [mul_self_nonneg a]

lemma sqNorm_nonneg (v : List ℚ) : 0 ≤ sqNorm v := dot_self_nonneg v

lemma signSq_strictMono : StrictMono signSq := by
  intro a b hab
  unfold signSq
  by_cases ha : a < 0 <;> by_cases hb : b < 0
  · rw [if_pos ha, if_pos hb]; nlinarith
  · rw [if_pos ha, if_neg hb]; push_neg at hb; nlinarith
  · rw [if_neg ha, if_pos hb]; push_neg at ha; nlinarith
  · rw [if_neg ha, if_neg hb]; push_neg at ha hb; nlinarith

lemma simKey_eq_signSq (q v : List ℚ) : ((simKey q v : ℚ) : ℝ) = signSq (cosSimR q v) := by
  unfold simKey cosSimR
  by_cases h : sqNorm q = 0 ∨ sqNorm v = 0
  · rw [if_pos h, if_pos h]
    simp [signSq]
  · rw [if_neg h, if_neg h]
    push_neg at h
    have hq0 : (0 : ℚ) < sqNorm q := lt_of_le_of_ne (sqNorm_nonneg q) (Ne.symm h.1)
    have hv0 : (0 : ℚ) < sqNorm v := lt_of_le_of_ne (sqNorm_nonneg v) (Ne.symm h.2)
    have hqr : (0 : ℝ) < Real.sqrt ((sqNorm q : ℚ) : ℝ) :=
      Real.sqrt_pos.mpr (by exact_mod_cast hq0)
    have hvr : (0 : ℝ) < Real.sqrt ((sqNorm v : ℚ) : ℝ) :=
      Real.sqrt_pos.mpr (by exact_mod_cast hv0)
    have hp : (0 : ℝ) < Real.sqrt ((sqNorm q : ℚ) : ℝ) * Real.sqrt ((sqNorm v : ℚ) : ℝ) :=
      mul_pos hqr hvr
    have hsq : (Real.sqrt ((sqNorm q : ℚ) : ℝ) * Real.sqrt ((sqNorm v : ℚ) : ℝ)) ^ 2
        = ((sqNorm q : ℚ) : ℝ) * ((sqNorm v : ℚ) : ℝ) := by
      rw [mul_pow, Real.sq_sqrt (by exact_mod_cast le_of_lt hq0),
        Real.sq_sqrt (by exact_mod_cast le_of_lt hv0)]
    by_cases hd : dot q v < 0
    · have hdr : ((dot q v : ℚ) : ℝ)
          / (Real.sqrt ((sqNorm q : ℚ) : ℝ) * Real.sqrt ((sqNorm v : ℚ) : ℝ)) < 0 :=
        div_neg_of_neg_of_pos (by exact_mod_cast hd) hp
      rw [if_pos hd, signSq, if_pos hdr, div_pow, hsq]
      push_cast
      ring
    · have hdr : ¬ ((dot q v : ℚ) : ℝ)
          / (Real.sqrt ((sqNorm q : ℚ) : ℝ) * Real.sqrt ((sqNorm v : ℚ) : ℝ)) < 0 := by
        push_neg at hd ⊢
        exact div_nonneg (by exact_mod_cast hd) (le_of_lt hp)
      rw [if_neg hd, signSq, if_neg hdr, div_pow, hsq]
      push_cast
      ring

/-- Comparing rational keys is comparing real cosine similarities. -/
lemma simKey_le_iff (q v w : List ℚ) :
    simKey q v ≤ simKey q w ↔ cosSimR q v ≤ cosSimR q w := by
  rw [show (simKey q v ≤ simKey q w ↔ ((simKey q v : ℚ) : ℝ) ≤ ((simKey q w : ℚ) : ℝ)) from
    (Rat.cast_le (K := ℝ)).symm, simKey_eq_signSq, simKey_eq_signSq,
    signSq_strictMono.le_iff_le]

/-- Comparing rational keys is comparing real cosine distances, reversed:
a larger key is a strictly smaller distance. -/
lemma cosDistR_le_iff_simKey (q v w : List ℚ) :
    cosDistR q v ≤ cosDistR q w ↔ simKey q w ≤ simKey q v := by
  unfold cosDistR
  rw [sub_le_sub_iff_left, ← simKey_le_iff]

/-! ### Structure of the `kneighbors` output -/

lemma mem_kneighborsSorted {q : List ℚ} {rows : List (List ℚ)} {x : ℕ × ℚ} :
    x ∈ kneighborsSorted q rows ↔
      ∃ i, i < rows.length ∧ x = (i, simKey q (rows.getD i [])) := by
  unfold kneighborsSorted neighborKeys
  rw [List.mem_insertionSort]
  simp only [List.mem_map, List.mem_range]
  constructor
  · rintro ⟨i, hi, rfl⟩; exact ⟨i, hi, rfl⟩
  · rintro ⟨i, hi, rfl⟩; exact ⟨i, hi, rfl⟩

lemma length_kneighborsSorted (q : List ℚ) (rows : List (List ℚ)) :
    (kneighborsSorted q rows).length = rows.length := by
  unfold kneighborsSorted neighborKeys
  rw [List.length_insertionSort, List.length_map, List.length_range]

lemma sorted_kneighborsSorted (q : List ℚ) (rows : List (List ℚ)) :
    List.Sorted NeighborLe (kneighborsSorted q rows) :=
  List.sorted_insertionSort NeighborLe _

lemma nodup_fst_kneighborsSorted (q : List ℚ) (rows : List (List ℚ)) :
    ((kneighborsSorted q rows).map Prod.fst).Nodup := by
  have hperm : List.Perm ((kneighborsSorted q rows).map Prod.fst)
      ((neighborKeys q rows).map Prod.fst) :=
    (List.perm_insertionSort NeighborLe _).map Prod.fst
  have heq : (neighborKeys q rows).map Prod.fst = List.range rows.length := by
    unfold neighborKeys
    rw [List.map_map]
    have hc : (Prod.fst ∘ fun i => (i, simKey q (rows.getD i []))) = fun i : ℕ => i := by
      funext i; rfl
    rw [hc]
    simp
  exact hperm.nodup_iff.mpr (heq ▸ List.nodup_range rows.length)

lemma pairwise_take_drop {α : Type} {r : α → α → Prop} {l : List α}
    (h : List.Pairwise r l) (k : ℕ) : ∀ a ∈ l.take k, ∀ b ∈ l.drop k, r a b := by
  have hl := List.take_append_drop k l
  rw [← hl] at h
  exact (List.pairwise_append.mp h).2.2

/-- When the query row is strictly more similar to itself than every other
row is to it, `kneighbors` reports it first. -/
lemma kneighborsSorted_cons (q : List ℚ) (rows : List (List ℚ)) (m : ℕ)
    (hm : m < rows.length) (hq : rows.getD m [] = q)
    (huniq : ∀ j, j < rows.length → j ≠ m → simKey q (rows.getD j []) < simKey q q) :
    ∃ T, kneighborsSorted q rows = (m, simKey q q) :: T := by
  cases hS : kneighborsSorted q rows with
  | nil =>
    exfalso
    have hlen := length_kneighborsSorted q rows
    rw [hS] at hlen
    simp at hlen
    omega
  | cons a T =>
    have haS : a ∈ kneighborsSorted q rows := by rw [hS]; exact List.mem_cons_self a T
    obtain ⟨i, hi, hai⟩ := mem_kneighborsSorted.mp haS
    have hmemm : (m, simKey q q) ∈ kneighborsSorted q rows :=
      mem_kneighborsSorted.mpr ⟨m, hm, by rw [hq]⟩
    by_cases him : i = m
    · subst him
      exact ⟨T, by rw [hai, hq]⟩
    · exfalso
      have hlt := huniq i hi him
      have hmT : (m, simKey q q) ∈ T := by
        rw [hS] at hmemm
        rcases List.mem_cons.mp hmemm with heq | hT
        · rw [hai] at heq
          exact absurd (congrArg Prod.fst heq).symm him
        · exact hT
      have hsorted := sorted_kneighborsSorted q rows
      rw [hS] at hsorted
      have hr := List.rel_of_sorted_cons hsorted _ hmT
      rw [hai] at hr
      rcases hr with h1 | ⟨h1, _⟩
      · simp only at h1; linarith
      · simp only at h1; linarith

lemma sorted_distPairLe_of_neighborLe {l : List (ℕ × ℚ)}
    (h : List.Sorted NeighborLe l) : List.Sorted DistPairLe l :=
  List.Pairwise.imp
    (fun hab => by
      rcases hab with h1 | ⟨h1, _⟩
      · exact le_of_lt h1
      · exact le_of_eq h1) h

/-! ### The success path of `get_movie_recommendation` -/

lemma get?_eq_some_getD {α : Type} (l : List α) (i : ℕ) (d : α) (h : i < l.length) :
    l.get? i = some (l.getD i d) := by
  rw [List.getD_eq_getElem l d h, List.get?_eq_getElem?, List.getElem?_eq_getElem h]

lemma recommendEntries_eq_map (movies : List MovieRow) (fd : FinalData)
    (pairs : List (ℕ × ℚ))
    (hb : ∀ p ∈ pairs, p.1 < fd.movieIds.length)
    (ht : ∀ p ∈ pairs,
      (movies.find? (fun m => m.movieId == fd.movieIds.getD p.1 0)).isSome = true) :
    recommendEntries movies fd pairs
      = some (pairs.map (fun p => (titleAt movies fd p.1, p.2))) := by
  induction pairs with
  | nil => rfl
  | cons a l ih =>
    have hba := hb a (List.mem_cons_self a l)
    have hta := ht a (List.mem_cons_self a l)
    obtain ⟨r, hr⟩ := Option.isSome_iff_exists.mp hta
    have htt : titleAt movies fd a.1 = r.title := by
      unfold titleAt
      rw [hr]
    simp only [recommendEntries, get?_eq_some_getD _ _ 0 hba, hr,
      ih (fun p hp => hb p (List.mem_cons_of_mem a hp))
        (fun p hp => ht p (List.mem_cons_of_mem a hp)),
      List.map_cons, htt]

/-- Master characterisation of the success path of `get_movie_recommendation`:
with a fuzzy match resolving to a movie of the filtered dataset, at least
`n+1` movies fitted, every fitted movie id resolvable to a title, and the
matched movie strictly more similar to itself than any other fitted movie
is to it, the call returns the `n` rows of smallest cosine distance to the
matched movie's vector, the matched row excluded, in order. -/
lemma gmr_success
    (ratio : String → String → ℚ) (movie_name : String) (movies : List MovieRow)
    (fd : FinalData) (csr : List (List ℚ)) (n : ℕ) (sel : String)
    (rest : List String) (row : MovieRow)
    (hcm : get_close_matches ratio movie_name (movies.map (fun m => m.title)) 1 (3/5)
      = sel :: rest)
    (hfind : movies.find? (fun m => m.title == sel) = some row)
    (hmem : row.movieId ∈ fd.movieIds)
    (hwf : fd.movieIds.length = csr.length)
    (hres : ∀ mid ∈ fd.movieIds, (movies.find? (fun m => m.movieId == mid)).isSome = true)
    (hlen : n + 1 ≤ csr.length)
    (huniq : ∀ j, j < csr.length → j ≠ fd.movieIds.indexOf row.movieId →
      simKey (csr.getD (fd.movieIds.indexOf row.movieId) []) (csr.getD j [])
        < simKey (csr.getD (fd.movieIds.indexOf row.movieId) [])
            (csr.getD (fd.movieIds.indexOf row.movieId) [])) :
    ∃ pairs : List (ℕ × ℚ),
      get_movie_recommendation ratio movie_name movies fd csr n
        = ⟨.ok pairs ((List.range' 1 n).zip
            (pairs.map (fun p => (titleAt movies fd p.1, p.2))))
            (decide (2 ≤ n)), 1⟩
      ∧ pairs.length = n
      ∧ (pairs.map Prod.fst).Nodup
      ∧ (∀ p ∈ pairs, p.1 < csr.length ∧ p.1 ≠ fd.movieIds.indexOf row.movieId
          ∧ p.2 = simKey (csr.getD (fd.movieIds.indexOf row.movieId) []) (csr.getD p.1 []))
      ∧ (∀ p ∈ pairs, ∀ j, j < csr.length → j ≠ fd.movieIds.indexOf row.movieId →
          j ∉ pairs.map Prod.fst →
          simKey (csr.getD (fd.movieIds.indexOf row.movieId) []) (csr.getD j []) ≤ p.2)
      ∧ List.Sorted (fun a b : ℕ × ℚ => a.2 ≤ b.2) pairs := by
  have hmidx : fd.movieIds.indexOf row.movieId < fd.movieIds.length :=
    List.indexOf_lt_length.mpr hmem
  set m := fd.movieIds.indexOf row.movieId with hm_def
  set q := csr.getD m [] with hq_def
  have hmcsr : m < csr.length := hwf ▸ hmidx
  obtain ⟨T, hTS⟩ := kneighborsSorted_cons q csr m hmcsr rfl huniq
  have hSlen : (kneighborsSorted q csr).length = csr.length :=
    length_kneighborsSorted q csr
  have hTlen : T.length = csr.length - 1 := by
    rw [hTS] at hSlen
    simp at hSlen
    omega
  have hTn : n ≤ T.length := by omega
  -- the kneighbors output and the re-sort
  have hknn : (kneighborsSorted q csr).take (n + 1) = (m, simKey q q) :: T.take n := by
    rw [hTS, List.take_succ_cons]
  have hSsorted := sorted_kneighborsSorted q csr
  have hknnSorted : List.Sorted NeighborLe ((kneighborsSorted q csr).take (n + 1)) :=
    hSsorted.sublist (List.take_sublist (n + 1) _)
  have hresort : ((kneighborsSorted q csr).take (n + 1)).insertionSort DistPairLe
      = (kneighborsSorted q csr).take (n + 1) :=
    (sorted_distPairLe_of_neighborLe hknnSorted).insertionSort_eq
  -- the element shape of members of T
  have hTsorted : List.Sorted NeighborLe T := by
    have := hSsorted
    rw [hTS] at this
    exact this.of_cons
  have hmT : m ∉ T.map Prod.fst := by
    have hnd := nodup_fst_kneighborsSorted q csr
    rw [hTS] at hnd
    simp only [List.map_cons] at hnd
    exact (List.nodup_cons.mp hnd).1
  have hTelem : ∀ p ∈ T, p.1 < csr.length ∧ p.1 ≠ m ∧ p.2 = simKey q (csr.getD p.1 []) := by
    intro p hp
    have hpS : p ∈ kneighborsSorted q csr := by
      rw [hTS]; exact List.mem_cons_of_mem _ hp
    obtain ⟨i, hi, hpi⟩ := mem_kneighborsSorted.mp hpS
    subst hpi
    refine ⟨hi, ?_, rfl⟩
    intro hcon
    exact hmT (hcon ▸ List.mem_map_of_mem Prod.fst hp)
  set pairs := (T.take n).reverse with hpairs_def
  have hpairsLen : pairs.length = n := by
    rw [hpairs_def, List.length_reverse, List.length_take]
    omega
  have hmemPairs : ∀ p, p ∈ pairs ↔ p ∈ T.take n := by
    intro p
    rw [hpairs_def, List.mem_reverse]
  have hpairsElem : ∀ p ∈ pairs, p.1 < csr.length ∧ p.1 ≠ m
      ∧ p.2 = simKey q (csr.getD p.1 []) := by
    intro p hp
    exact hTelem p ((List.take_sublist n T).subset ((hmemPairs p).mp hp))
  -- optimality of the selection
  have hopt : ∀ p ∈ pairs, ∀ j, j < csr.length → j ≠ m → j ∉ pairs.map Prod.fst →
      simKey q (csr.getD j []) ≤ p.2 := by
    intro p hp j hj hjm hjp
    have hjS : (j, simKey q (csr.getD j [])) ∈ kneighborsSorted q csr :=
      mem_kneighborsSorted.mpr ⟨j, hj, rfl⟩
    have hjT : (j, simKey q (csr.getD j [])) ∈ T := by
      rw [hTS] at hjS
      rcases List.mem_cons.mp hjS with heq | hT
      · exact absurd (congrArg Prod.fst heq) hjm
      · exact hT
    have hjdrop : (j, simKey q (csr.getD j [])) ∈ T.drop n := by
      have := (List.take_append_drop n T) ▸ hjT
      rcases List.mem_append.mp this with htk | hdr
      · exfalso
        apply hjp
        rw [hpairs_def, List.map_reverse, List.mem_reverse]
        exact List.mem_map_of_mem Prod.fst htk
      · exact hdr
    have hrel := pairwise_take_drop hTsorted n p ((hmemPairs p).mp hp) _ hjdrop
    rcases hrel with h1 | ⟨h1, _⟩
    · exact le_of_lt h1
    · exact le_of_eq h1
  -- sortedness of the selection, ascending keys
  have hpairsSorted : List.Sorted (fun a b : ℕ × ℚ => a.2 ≤ b.2) pairs := by
    rw [hpairs_def]
    rw [show (List.Sorted (fun a b : ℕ × ℚ => a.2 ≤ b.2) (T.take n).reverse)
        = List.Pairwise (fun a b : ℕ × ℚ => a.2 ≤ b.2) (T.take n).reverse from rfl,
      List.pairwise_reverse]
    exact List.Pairwise.imp
      (fun hab => by
        rcases hab with h1 | ⟨h1, _⟩
        · exact le_of_lt h1
        · exact le_of_eq h1)
      (hTsorted.sublist (List.take_sublist n T))
  -- assemble the run
  refine ⟨pairs, ?_, hpairsLen, ?_, hpairsElem, hopt, hpairsSorted⟩
  · unfold get_movie_recommendation
    rw [hcm]
    simp only []
    rw [hfind]
    simp only []
    rw [if_pos hmem, if_neg (by omega : ¬ csr.length < n + 1)]
    simp only [← hm_def, ← hq_def, hknn]
    have hresort2 : List.insertionSort DistPairLe ((m, simKey q q) :: List.take n T)
        = (m, simKey q q) :: List.take n T := by
      rw [← hknn]; exact hresort
    have hdrop : List.drop 1 ((m, simKey q q) :: List.take n T) = List.take n T := rfl
    rw [hresort2, hdrop, ← hpairs_def]
    rw [recommendEntries_eq_map movies fd pairs
        (fun p hp => hwf ▸ (hpairsElem p hp).1)
        (fun p hp => by
          apply hres
          have hb : p.1 < fd.movieIds.length := hwf ▸ (hpairsElem p hp).1
          rw [List.getD_eq_getElem fd.movieIds 0 hb]
          exact List.getElem_mem hb)]
    simp only [List.length_map, hpairsLen, if_pos rfl]
    have hvar : (match variance (pairs.map (fun p => p.2)) with
        | .ok _ => true | .error _ => false) = decide (2 ≤ n) := by
      unfold variance
      by_cases h2 : (pairs.map (fun p => p.2)).length < 2
      · rw [if_pos h2]
        simp only [List.length_map, hpairsLen] at h2
        simp [Nat.lt_iff_add_one_le] at h2 ⊢
        omega
      · rw [if_neg h2]
        simp only [List.length_map, hpairsLen] at h2
        simp at h2 ⊢
        omega
    rw [hvar]
    simp
  · rw [hpairs_def, List.map_reverse]
    rw [List.nodup_reverse]
    have hsub : List.Sublist ((T.take n).map Prod.fst) (T.map Prod.fst) :=
      (List.take_sublist n T).map Prod.fst
    have hnd := nodup_fst_kneighborsSorted q csr
    rw [hTS] at hnd
    simp only [List.map_cons] at hnd
    exact (List.nodup_cons.mp hnd).2.sublist hsub

/-! ### Inversion of a successful `get_movie_recommendation` run -/

lemma recommendEntries_snd (movies : List MovieRow) (fd : FinalData) :
    ∀ (pairs : List (ℕ × ℚ)) (es : List (String × ℚ)),
      recommendEntries movies fd pairs = some es →
      es.map Prod.snd = pairs.map Prod.snd := by
  intro pairs
  induction pairs with
  | nil =>
    intro es h
    unfold recommendEntries at h
    simp only [Option.some.injEq] at h
    subst h
    rfl
  | cons a l ih =>
    intro es h
    unfold recommendEntries at h
    cases hg : fd.movieIds.get? a.1 with
    | none => simp only [hg] at h; exact Option.noConfusion h
    | some mid =>
      simp only [hg] at h
      cases hf : movies.find? (fun mr => mr.movieId == mid) with
      | none => simp only [hf] at h; exact Option.noConfusion h
      | some r =>
        simp only [hf] at h
        cases hrec : recommendEntries movies fd l with
        | none => simp only [hrec] at h; exact Option.noConfusion h
        | some tl =>
          simp only [hrec, Option.some.injEq] at h
          subst h
          simp [ih tl hrec]

/-- Whatever led there, a run that returned a dataframe went through the
success path: the recommended pairs are the reversed tail of the re-sorted
`kneighbors` output for some query vector `q`, the frame resolves them to
titles, its index is `range(1, n+1)`, and the variance flag records whether
`statistics.variance` succeeded on the distance column. -/
lemma gmr_ok_inversion (ratio : String → String → ℚ) (movie_name : String)
    (movies : List MovieRow) (fd : FinalData) (csr : List (List ℚ)) (n : ℕ)
    (pairs : List (ℕ × ℚ)) (df : List (ℕ × String × ℚ)) (vo : Bool)
    (h : (get_movie_recommendation ratio movie_name movies fd csr n).result
      = .ok pairs df vo) :
    ∃ q es,
      pairs = ((((kneighborsSorted q csr).take (n + 1)).insertionSort
        DistPairLe).drop 1).reverse
      ∧ recommendEntries movies fd pairs = some es
      ∧ es.length = n
      ∧ df = (List.range' 1 n).zip es
      ∧ vo = (match variance (pairs.map (fun p => p.2)) with
              | .ok _ => true | .error _ => false) := by
  unfold get_movie_recommendation at h
  split at h
  · simp at h
  · split at h
    · simp at h
    · split at h
      · split at h
        · simp at h
        · simp only [] at h
          split at h
          · simp at h
          · split at h
            · rename_i row hmemb hlen entries hentries hlength
              simp only [GmrResult.ok.injEq] at h
              obtain ⟨h1, h2, h3⟩ := h
              subst h1
              exact ⟨_, entries, rfl, hentries, hlength, h2.symm, h3.symm⟩
            · simp at h
      · simp at h

/-! ### The claims -/

/-- Claim C1: for every queried movie name that fuzzy-matches a title whose
movieId is present in the filtered dataset, `get_movie_recommendation`
returns the `n_movies_to_recommend` movies whose rating vectors have the
smallest cosine distance to the matched movie's rating vector among all
movies in the filtered dataset, the matched movie itself excluded.
Hypotheses: the fuzzy match resolves to `sel` and movie row `row` (hcm,
hfind) with its id in the dataset (hmem); the fitted matrix is the dataset's
(hwf) with every fitted id resolvable to a title (hres); at least `n+1`
movies are fitted (hlen); and the matched movie is strictly more similar to
itself than any other fitted row is to it (huniq — with an exact tie the
library's tie-break decides which duplicate is dropped).  Conclusion: the
call succeeds, returning `n` distinct rows other than the matched one such
that every unreturned row is at a cosine distance at least as large, and the
dataframe lists exactly those rows' titles and distances. -/
theorem claim_C1_nearest_neighbors
    (ratio : String → String → ℚ) (movie_name : String) (movies : List MovieRow)
    (fd : FinalData) (csr : List (List ℚ)) (n : ℕ) (sel : String)
    (rest : List String) (row : MovieRow)
    (hcm : get_close_matches ratio movie_name (movies.map (fun m => m.title)) 1 (3/5)
      = sel :: rest)
    (hfind : movies.find? (fun m => m.title == sel) = some row)
    (hmem : row.movieId ∈ fd.movieIds)
    (hwf : fd.movieIds.length = csr.length)
    (hres : ∀ mid ∈ fd.movieIds, (movies.find? (fun m => m.movieId == mid)).isSome = true)
    (hlen : n + 1 ≤ csr.length)
    (huniq : ∀ j, j < csr.length → j ≠ fd.movieIds.indexOf row.movieId →
      simKey (csr.getD (fd.movieIds.indexOf row.movieId) []) (csr.getD j [])
        < simKey (csr.getD (fd.movieIds.indexOf row.movieId) [])
            (csr.getD (fd.movieIds.indexOf row.movieId) [])) :
    ∃ pairs : List (ℕ × ℚ),
      get_movie_recommendation ratio movie_name movies fd csr n
        = ⟨.ok pairs ((List.range' 1 n).zip
            (pairs.map (fun p => (titleAt movies fd p.1, p.2))))
            (decide (2 ≤ n)), 1⟩
      ∧ pairs.length = n
      ∧ (pairs.map Prod.fst).Nodup
      ∧ (∀ p ∈ pairs, p.1 < csr.length ∧ p.1 ≠ fd.movieIds.indexOf row.movieId)
      ∧ (∀ p ∈ pairs, ∀ j, j < csr.length → j ≠ fd.movieIds.indexOf row.movieId →
          j ∉ pairs.map Prod.fst →
          cosDistR (csr.getD (fd.movieIds.indexOf row.movieId) []) (csr.getD p.1 [])
            ≤ cosDistR (csr.getD (fd.movieIds.indexOf row.movieId) []) (csr.getD j [])) := by
  obtain ⟨pairs, heq, hlen', hnd, helem, hopt, hsort⟩ :=
    gmr_success ratio movie_name movies fd csr n sel rest row hcm hfind hmem hwf hres
      hlen huniq
  refine ⟨pairs, heq, hlen', hnd, fun p hp => ⟨(helem p hp).1, (helem p hp).2.1⟩, ?_⟩
  intro p hp j hj hjm hjp
  rw [cosDistR_le_iff_simKey, ← (helem p hp).2.2]
  exact hopt p hp j hj hjm hjp

/-- Claim C8: for every successful call on a filtered dataset with at least
`n+1` movies, the returned dataframe has exactly `n` rows indexed 1 through
`n`, and the matched movie's row never appears among the recommendations
(under the same unique-self-similarity hypothesis as C1, which rules out an
exact duplicate of the matched vector). -/
theorem claim_C8_frame_shape
    (ratio : String → String → ℚ) (movie_name : String) (movies : List MovieRow)
    (fd : FinalData) (csr : List (List ℚ)) (n : ℕ) (sel : String)
    (rest : List String) (row : MovieRow)
    (hcm : get_close_matches ratio movie_name (movies.map (fun m => m.title)) 1 (3/5)
      = sel :: rest)
    (hfind : movies.find? (fun m => m.title == sel) = some row)
    (hmem : row.movieId ∈ fd.movieIds)
    (hwf : fd.movieIds.length = csr.length)
    (hres : ∀ mid ∈ fd.movieIds, (movies.find? (fun m => m.movieId == mid)).isSome = true)
    (hlen : n + 1 ≤ csr.length)
    (huniq : ∀ j, j < csr.length → j ≠ fd.movieIds.indexOf row.movieId →
      simKey (csr.getD (fd.movieIds.indexOf row.movieId) []) (csr.getD j [])
        < simKey (csr.getD (fd.movieIds.indexOf row.movieId) [])
            (csr.getD (fd.movieIds.indexOf row.movieId) [])) :
    ∃ (pairs : List (ℕ × ℚ)) (df : List (ℕ × String × ℚ)),
      get_movie_recommendation ratio movie_name movies fd csr n
        = ⟨.ok pairs df (decide (2 ≤ n)), 1⟩
      ∧ df.length = n
      ∧ df.map Prod.fst = List.range' 1 n
      ∧ fd.movieIds.indexOf row.movieId ∉ pairs.map Prod.fst := by
  obtain ⟨pairs, heq, hlen', hnd, helem, hopt, hsort⟩ :=
    gmr_success ratio movie_name movies fd csr n sel rest row hcm hfind hmem hwf hres
      hlen huniq
  refine ⟨pairs, _, heq, ?_, ?_, ?_⟩
  · rw [List.length_zip, List.length_map, hlen']
    simp
  · refine List.map_fst_zip _ _ ?_
    rw [List.length_map, hlen']
    simp
  · intro hcon
    obtain ⟨p, hp, hfst⟩ := List.mem_map.mp hcon
    exact (helem p hp).2.1 hfst

/-- Claim C3: for every successful call, the recommendation results are
sorted by distance: the Distance column of the returned (and printed)
dataframe is monotonically ordered from the first row to the last (in the
code's order the distances are non-increasing, largest first).  Distances
are represented by their rational keys (`simKey`, larger key = strictly
smaller distance): the dataframe's Distance column carries the keys of the
recommended rows, those keys are non-decreasing along the frame, and in
terms of the real-valued cosine distance to the query vector the rows are
in non-increasing distance order. -/
theorem claim_C3_sorted_output
    (ratio : String → String → ℚ) (movie_name : String) (movies : List MovieRow)
    (fd : FinalData) (csr : List (List ℚ)) (n : ℕ)
    (pairs : List (ℕ × ℚ)) (df : List (ℕ × String × ℚ)) (vo : Bool)
    (h : (get_movie_recommendation ratio movie_name movies fd csr n).result
      = .ok pairs df vo) :
    df.map (fun e => e.2.2) = pairs.map Prod.snd
    ∧ List.Sorted (fun a b : ℚ => a ≤ b) (df.map (fun e => e.2.2))
    ∧ ∃ q, (∀ p ∈ pairs, p.2 = simKey q (csr.getD p.1 []))
        ∧ List.Pairwise (fun a b : ℕ × ℚ =>
            cosDistR q (csr.getD b.1 []) ≤ cosDistR q (csr.getD a.1 [])) pairs := by
  obtain ⟨q, es, hp, hrec, hlen, hdf, hvo⟩ :=
    gmr_ok_inversion ratio movie_name movies fd csr n pairs df vo h
  have hsorted' : List.Sorted DistPairLe
      (((kneighborsSorted q csr).take (n + 1)).insertionSort DistPairLe) :=
    List.sorted_insertionSort DistPairLe _
  have hsorted'' : List.Pairwise DistPairLe
      ((((kneighborsSorted q csr).take (n + 1)).insertionSort DistPairLe).drop 1) :=
    hsorted'.sublist (List.drop_sublist 1 _)
  have hpairsAsc : List.Pairwise (fun a b : ℕ × ℚ => a.2 ≤ b.2) pairs := by
    rw [hp, List.pairwise_reverse]
    exact hsorted''
  have helem : ∀ p ∈ pairs, p.2 = simKey q (csr.getD p.1 []) := by
    intro p hpmem
    rw [hp, List.mem_reverse] at hpmem
    have h1 : p ∈ ((kneighborsSorted q csr).take (n + 1)).insertionSort DistPairLe :=
      (List.drop_sublist 1 _).subset hpmem
    rw [List.mem_insertionSort] at h1
    have h2 : p ∈ kneighborsSorted q csr := (List.take_sublist _ _).subset h1
    obtain ⟨i, hi, hpi⟩ := mem_kneighborsSorted.mp h2
    rw [hpi]
  have hcos : List.Pairwise (fun a b : ℕ × ℚ =>
      cosDistR q (csr.getD b.1 []) ≤ cosDistR q (csr.getD a.1 [])) pairs := by
    refine List.Pairwise.imp_of_mem ?_ hpairsAsc
    intro a b ha hb hab
    rw [cosDistR_le_iff_simKey, ← helem a ha, ← helem b hb]
    exact hab
  have hsndzip : df.map (fun e => e.2) = es := by
    rw [hdf]
    exact List.map_snd_zip _ _ (by rw [hlen]; simp)
  have hcol : df.map (fun e => e.2.2) = pairs.map Prod.snd := by
    have hmm : df.map (fun e : ℕ × String × ℚ => e.2.2)
        = (df.map (fun e => e.2)).map Prod.snd := by
      rw [List.map_map]
      rfl
    rw [hmm, hsndzip, recommendEntries_snd movies fd pairs es hrec]
  refine ⟨hcol, ?_, q, helem, hcos⟩
  rw [hcol]
  exact (List.pairwise_map).mpr hpairsAsc

/-- Claim C6: exactly one fuzzy string match is performed per query:
`difflib.get_close_matches` is called with `n = 1`, so the user-supplied
name resolves to at most one closest title; and for every input name with
no sufficiently close title (every ratio below the 0.6 cutoff) the function
prints a message and returns `None` (`noMatch`) without querying the
nearest-neighbour model (`knnQueries = 0`). -/
theorem claim_C6_single_fuzzy_match
    (ratio : String → String → ℚ) (movie_name : String) (movies : List MovieRow)
    (fd : FinalData) (csr : List (List ℚ)) (n : ℕ) :
    (get_close_matches ratio movie_name (movies.map (fun m => m.title)) 1 (3/5)).length ≤ 1
    ∧ ((∀ t ∈ movies.map (fun m => m.title), ratio movie_name t < 3/5) →
        get_movie_recommendation ratio movie_name movies fd csr n = ⟨.noMatch, 0⟩) := by
  constructor
  · unfold get_close_matches
    rw [List.length_map, List.length_take]
    exact min_le_left _ _
  · intro hno
    have hnil : get_close_matches ratio movie_name (movies.map (fun m => m.title)) 1 (3/5)
        = [] := by
      unfold get_close_matches
      rw [List.filter_eq_nil_iff.mpr (fun x hx => by
        simp only [decide_eq_true_eq, not_le]
        exact hno x hx)]
      rfl
    unfold get_movie_recommendation
    rw [hnil]

/-- Claim C9: for every queried name whose fuzzy-matched title resolves to a
movie row whose movieId is absent from the filtered dataset,
`get_movie_recommendation` prints a message and returns `None`
(`notInDataset`) without calling `kneighbors` (`knnQueries = 0`); the call
only reads the model and datasets, so they are unchanged. -/
theorem claim_C9_unmatched_dataset
    (ratio : String → String → ℚ) (movie_name : String) (movies : List MovieRow)
    (fd : FinalData) (csr : List (List ℚ)) (n : ℕ) (sel : String)
    (rest : List String) (row : MovieRow)
    (hcm : get_close_matches ratio movie_name (movies.map (fun m => m.title)) 1 (3/5)
      = sel :: rest)
    (hfind : movies.find? (fun m => m.title == sel) = some row)
    (hnot : row.movieId ∉ fd.movieIds) :
    get_movie_recommendation ratio movie_name movies fd csr n = ⟨.notInDataset, 0⟩ := by
  unfold get_movie_recommendation
  rw [hcm]
  simp only []
  rw [hfind]
  simp only []
  rw [if_neg hnot]

/-- Evaluation of the fuzzy match on the three-movie example: only "A"
reaches the 0.6 cutoff under the exact-match ratio. -/
lemma exMovies_close_match :
    get_close_matches exRatio "A" (exMovies.map (fun m => m.title)) 1 (3/5)
      = "A" :: [] := by
  have h1 : ((3 : ℚ)/5 ≤ exRatio "A" "A") := by
    rw [show exRatio "A" "A" = 1 from by decide]
    norm_num
  have h2 : ¬ ((3 : ℚ)/5 ≤ exRatio "A" "B") := by
    rw [show exRatio "A" "B" = 0 from by decide]
    norm_num
  have h3 : ¬ ((3 : ℚ)/5 ≤ exRatio "A" "C") := by
    rw [show exRatio "A" "C" = 0 from by decide]
    norm_num
  simp only [exMovies, List.map_cons, List.map_nil, get_close_matches, List.filter_cons,
    decide_eq_true h1, decide_eq_false h2, decide_eq_false h3, if_true, if_false,
    List.filter_nil, List.insertionSort, List.orderedInsert, List.take_succ_cons,
    List.take_zero]

/-- Evaluation of the fuzzy match on the one-movie example. -/
lemma soloMovies_close_match :
    get_close_matches exRatio "A" (soloMovies.map (fun m => m.title)) 1 (3/5)
      = "A" :: [] := by
  have h1 : ((3 : ℚ)/5 ≤ exRatio "A" "A") := by
    rw [show exRatio "A" "A" = 1 from by decide]
    norm_num
  simp only [soloMovies, List.map_cons, List.map_nil, get_close_matches, List.filter_cons,
    decide_eq_true h1, if_true, List.filter_nil, List.insertionSort, List.orderedInsert,
    List.take_succ_cons, List.take_zero]

/-- In the example matrix, movie "A" (row 0, vector [1, 0]) is strictly
more similar to itself than rows 1 and 2 are to it. -/
lemma exFinal_selfNearest : ∀ j, j < exFinal.matrix.length →
    j ≠ exFinal.movieIds.indexOf (10 : ℕ) →
    simKey (exFinal.matrix.getD (exFinal.movieIds.indexOf (10 : ℕ)) [])
        (exFinal.matrix.getD j [])
      < simKey (exFinal.matrix.getD (exFinal.movieIds.indexOf (10 : ℕ)) [])
          (exFinal.matrix.getD (exFinal.movieIds.indexOf (10 : ℕ)) []) := by
  intro j hj hne
  have hidx : exFinal.movieIds.indexOf (10 : ℕ) = 0 := by decide
  rw [hidx] at hne ⊢
  have hj3 : j < 3 := by simpa [exFinal] using hj
  interval_cases j
  · exact absurd rfl hne
  · show simKey (exFinal.matrix.getD 0 []) (exFinal.matrix.getD 1 [])
      < simKey (exFinal.matrix.getD 0 []) (exFinal.matrix.getD 0 [])
    show simKey [1, 0] [0, 1] < simKey [1, 0] [1, 0]
    norm_num [simKey, dot, sqNorm, List.zipWith]
  · show simKey (exFinal.matrix.getD 0 []) (exFinal.matrix.getD 2 [])
      < simKey (exFinal.matrix.getD 0 []) (exFinal.matrix.getD 0 [])
    show simKey [1, 0] [1, 1] < simKey [1, 0] [1, 0]
    norm_num [simKey, dot, sqNorm, List.zipWith]

/-- Claim C2 counterexample: the file-not-found catch is not the only piece
of error handling in the program.  `get_movie_recommendation` wraps
`statistics.variance(similarities)` in its own try/except: on this concrete
input (a single recommendation requested over the three-movie example) the
variance computation receives a one-element list and raises
`StatisticsError`, yet the call catches it (`varianceFailed`), prints the
fallback message, and still returns its dataframe normally (`isOk`).  An
error condition other than `FileNotFoundError` is therefore caught and
handled inside the program, contradicting the claim as stated. -/
theorem claim_C2_counterexample :
    variance [(1 : ℚ)] = Except.error ()
    ∧ (get_movie_recommendation exRatio "A" exMovies exFinal
        exFinal.matrix 1).result.isOk = true
    ∧ (get_movie_recommendation exRatio "A" exMovies exFinal
        exFinal.matrix 1).result.varianceFailed = true := by
  obtain ⟨pairs, heq, hlen, hrest⟩ :=
    gmr_success exRatio "A" exMovies exFinal exFinal.matrix 1 "A" [] ⟨10, "A"⟩
      exMovies_close_match (by decide) (by decide) (by decide) (by decide) (by decide)
      exFinal_selfNearest
  refine ⟨rfl, ?_, ?_⟩ <;> rw [heq] <;> rfl

/-- Claim C2 amended: the program's failure-recovery logic consists of
exactly two catches.  (i) `load_and_preprocess_data` catches
`FileNotFoundError`: it returns `(None, None, None)` precisely when a CSV
file is missing, upon which `main` returns without fitting a model,
training, or reading any input.  (ii) `get_movie_recommendation` catches
`statistics.StatisticsError` around the variance print: a successful call's
variance flag is `false` exactly when `statistics.variance` raised on the
distance column, and the dataframe is returned regardless.  No other error
condition is caught. -/
theorem claim_C2_amended :
    (∀ fs : Files, load_and_preprocess_data fs = none
        ↔ (fs.moviesCsv = none ∨ fs.ratingsCsv = none))
    ∧ (∀ (fs : Files) (labels : List Bool) (perm : List ℕ)
        (svm : List (List ℚ) → List Bool → List (List ℚ) → List Bool)
        (ratio : String → String → ℚ) (inputs : List String),
        load_and_preprocess_data fs = none →
        main_run fs labels perm svm ratio inputs = ⟨true, false, [], []⟩)
    ∧ (∀ (ratio : String → String → ℚ) (movie_name : String) (movies : List MovieRow)
        (fd : FinalData) (csr : List (List ℚ)) (n : ℕ)
        (pairs : List (ℕ × ℚ)) (df : List (ℕ × String × ℚ)) (vo : Bool),
        (get_movie_recommendation ratio movie_name movies fd csr n).result
          = .ok pairs df vo →
        (vo = false ↔ variance (pairs.map (fun p => p.2)) = Except.error ())) := by
  refine ⟨?_, ?_, ?_⟩
  · intro fs
    cases hm : fs.moviesCsv <;> cases hr : fs.ratingsCsv <;>
      simp [load_and_preprocess_data, hm, hr]
  · intro fs labels perm svm ratio inputs hload
    unfold main_run
    rw [hload]
  · intro ratio movie_name movies fd csr n pairs df vo h
    obtain ⟨q, es, hp, hrec, hlen, hdf, hvo⟩ :=
      gmr_ok_inversion ratio movie_name movies fd csr n pairs df vo h
    rw [hvo]
    cases hv : variance (pairs.map (fun p => p.2)) with
    | ok v => simp [hv]
    | error e => cases e; simp [hv]

/-- Claim C5: the classifier training has no bearing on the recommendation
output: for every dataset, every draw of the random binary labels, every
seed-42 shuffle and every SVM, the per-query recommendation outputs of the
full pipeline coincide with those of the pipeline in which `train_models`
is not run at all. -/
theorem claim_C5_training_noninterference
    (fs : Files) (labels : List Bool) (perm : List ℕ)
    (svm : List (List ℚ) → List Bool → List (List ℚ) → List Bool)
    (ratio : String → String → ℚ) (inputs : List String) :
    (main_run fs labels perm svm ratio inputs).queryOutputs
      = main_run_without_training fs ratio inputs := by
  unfold main_run main_run_without_training
  cases hload : load_and_preprocess_data fs with
  | none => rfl
  | some x =>
    obtain ⟨movies, ratings, fd⟩ := x
    rfl

/-! ### The pivot/filter step -/

lemma mem_pivotMovieIds {ratings : List RatingRow} {m : ℕ} :
    m ∈ pivotMovieIds ratings ↔ ∃ r ∈ ratings, r.movieId = m := by
  unfold pivotMovieIds
  rw [List.mem_insertionSort, List.mem_dedup, List.mem_map]

lemma nodup_pivotMovieIds (ratings : List RatingRow) : (pivotMovieIds ratings).Nodup :=
  (List.perm_insertionSort _ _).nodup_iff.mpr (List.nodup_dedup _)

lemma mem_keptUserIds {ratings : List RatingRow} {u : ℕ} :
    u ∈ keptUserIds ratings ↔
      (∃ r ∈ ratings, r.userId = u) ∧ 50 < userRatingCount ratings u := by
  unfold keptUserIds
  rw [List.mem_filter, List.mem_insertionSort, List.mem_dedup, List.mem_map]
  simp only [decide_eq_true_eq]

lemma getD_map_getD {α β : Type} (l : List α) (f : α → β) (i : ℕ) (d : β) (d0 : α)
    (h : i < l.length) : (l.map f).getD i d = f (l.getD i d0) := by
  rw [List.getD_eq_getElem _ d (by simpa using h), List.getElem_map,
    ← List.getD_eq_getElem l d0 h]

/-- The (i, j) entry of the built matrix is the pivot entry of the i-th
movie id and the j-th kept user. -/
lemma buildFinalDataset_entry (ratings : List RatingRow) (i j : ℕ)
    (hi : i < (buildFinalDataset ratings).movieIds.length)
    (hj : j < (buildFinalDataset ratings).userIds.length) :
    ((buildFinalDataset ratings).matrix.getD i []).getD j 0
      = pivotEntry ratings ((buildFinalDataset ratings).movieIds.getD i 0)
          ((buildFinalDataset ratings).userIds.getD j 0) := by
  unfold buildFinalDataset at *
  simp only at hi hj ⊢
  rw [getD_map_getD (pivotMovieIds ratings) _ i [] 0 hi,
    getD_map_getD (keptUserIds ratings) _ j 0 0 hj]

/-- Claim C4: the pivot of ratings.csv has one row per movieId occurring in
ratings.csv (no movie rows are removed by the filter, and rows are not
duplicated), keeps exactly those user columns whose userId has strictly
more than 50 ratings, has one matrix row per movie row, each matrix cell
being the pivot entry of its (movieId, userId) position, and every
(movieId, userId) pair with no rating in ratings.csv is filled with 0. -/
theorem claim_C4_pivot_and_filter (ratings : List RatingRow) :
    ((buildFinalDataset ratings).movieIds.Nodup
      ∧ ∀ m, m ∈ (buildFinalDataset ratings).movieIds ↔ ∃ r ∈ ratings, r.movieId = m)
    ∧ (∀ u, u ∈ (buildFinalDataset ratings).userIds ↔
        (∃ r ∈ ratings, r.userId = u) ∧ 50 < userRatingCount ratings u)
    ∧ (buildFinalDataset ratings).matrix.length
        = (buildFinalDataset ratings).movieIds.length
    ∧ (∀ i j, i < (buildFinalDataset ratings).movieIds.length →
        j < (buildFinalDataset ratings).userIds.length →
        ((buildFinalDataset ratings).matrix.getD i []).getD j 0
          = pivotEntry ratings ((buildFinalDataset ratings).movieIds.getD i 0)
              ((buildFinalDataset ratings).userIds.getD j 0))
    ∧ (∀ m u, (∀ r ∈ ratings, ¬ (r.movieId = m ∧ r.userId = u)) →
        pivotEntry ratings m u = 0) := by
  refine ⟨⟨nodup_pivotMovieIds ratings, fun m => mem_pivotMovieIds⟩,
    fun u => mem_keptUserIds, ?_, buildFinalDataset_entry ratings, ?_⟩
  · unfold buildFinalDataset
    simp
  · intro m u hnone
    have hfil : pairRatings ratings m u = [] := by
      unfold pairRatings
      rw [List.filter_eq_nil_iff.mpr (fun r hr => by
        simp only [Bool.and_eq_true, beq_iff_eq, not_and]
        intro h1 h2
        exact hnone r hr ⟨h1, h2⟩)]
      rfl
    unfold pivotEntry
    rw [hfil]
    rfl

/-! ### `train_models` -/

lemma truePositives_le_count_pred : ∀ t p : List Bool, truePositives t p ≤ p.count true := by
  intro t
  induction t with
  | nil => intro p; simp [truePositives]
  | cons a t ih =>
    intro p
    cases p with
    | nil => simp [truePositives]
    | cons b p =>
      have hz : truePositives (a :: t) (b :: p)
          = ((a && b) :: List.zipWith (fun x y => x && y) t p).count true := rfl
      rw [hz, List.count_cons, List.count_cons]
      have hih := ih p
      unfold truePositives at hih
      cases a <;> cases b <;> simp <;> omega

lemma truePositives_le_count_true : ∀ t p : List Bool, truePositives t p ≤ t.count true := by
  intro t
  induction t with
  | nil => intro p; simp [truePositives]
  | cons a t ih =>
    intro p
    cases p with
    | nil => simp [truePositives]
    | cons b p =>
      have hz : truePositives (a :: t) (b :: p)
          = ((a && b) :: List.zipWith (fun x y => x && y) t p).count true := rfl
      rw [hz, List.count_cons, List.count_cons]
      have hih := ih p
      unfold truePositives at hih
      cases a <;> cases b <;> simp <;> omega

lemma precision_score_mem_unit (t p : List Bool) :
    0 ≤ precision_score t p ∧ precision_score t p ≤ 1 := by
  unfold precision_score
  by_cases h : p.count true = 0
  · rw [if_pos h]; norm_num
  · rw [if_neg h]
    have hpos : (0 : ℚ) < (p.count true : ℚ) := by
      exact_mod_cast Nat.pos_of_ne_zero h
    constructor
    · positivity
    · rw [div_le_one hpos]
      exact_mod_cast truePositives_le_count_pred t p

lemma recall_score_mem_unit (t p : List Bool) :
    0 ≤ recall_score t p ∧ recall_score t p ≤ 1 := by
  unfold recall_score
  by_cases h : t.count true = 0
  · rw [if_pos h]; norm_num
  · rw [if_neg h]
    have hpos : (0 : ℚ) < (t.count true : ℚ) := by
      exact_mod_cast Nat.pos_of_ne_zero h
    constructor
    · positivity
    · rw [div_le_one hpos]
      exact_mod_cast truePositives_le_count_true t p

/-- Claim C7: `train_models` trains exactly two classifiers — the SVM and
the 5-nearest-neighbour classifier — on an 80/20 train/test split of the
filtered rating matrix (the test part has `ceil(n/5)` samples of the
seed-42 shuffle, the training part the rest) against the given binary
labels, and its entire output is the two precision/recall records computed
with `zero_division=1` (hence both scores lie in [0, 1]); within `main` its
only contribution is the `metrics` component of the output, the same for
every loaded dataset. -/
theorem claim_C7_two_classifiers (fd : FinalData) (labels : List Bool) (perm : List ℕ)
    (svm : List (List ℚ) → List Bool → List (List ℚ) → List Bool)
    (hperm : perm.length = fd.matrix.length) :
    (train_models fd labels perm svm).length = 2
    ∧ (train_test_split fd.matrix labels perm).2.1.length = (fd.matrix.length + 4) / 5
    ∧ (train_test_split fd.matrix labels perm).1.length
        = fd.matrix.length - (fd.matrix.length + 4) / 5
    ∧ train_models fd labels perm svm
      = [⟨"SVM",
            precision_score (train_test_split fd.matrix labels perm).2.2.2
              (svm (train_test_split fd.matrix labels perm).1
                (train_test_split fd.matrix labels perm).2.2.1
                (train_test_split fd.matrix labels perm).2.1),
            recall_score (train_test_split fd.matrix labels perm).2.2.2
              (svm (train_test_split fd.matrix labels perm).1
                (train_test_split fd.matrix labels perm).2.2.1
                (train_test_split fd.matrix labels perm).2.1)⟩,
         ⟨"K-NN",
            precision_score (train_test_split fd.matrix labels perm).2.2.2
              ((train_test_split fd.matrix labels perm).2.1.map
                (knn5Predict (train_test_split fd.matrix labels perm).1
                  (train_test_split fd.matrix labels perm).2.2.1)),
            recall_score (train_test_split fd.matrix labels perm).2.2.2
              ((train_test_split fd.matrix labels perm).2.1.map
                (knn5Predict (train_test_split fd.matrix labels perm).1
                  (train_test_split fd.matrix labels perm).2.2.1))⟩]
    ∧ (∀ mm ∈ train_models fd labels perm svm,
        0 ≤ mm.precisionVal ∧ mm.precisionVal ≤ 1 ∧ 0 ≤ mm.recallVal ∧ mm.recallVal ≤ 1)
    ∧ (∀ (movies : List MovieRow) (ratings : List RatingRow)
        (ratioF : String → String → ℚ) (inputs : List String),
        (main_run ⟨some movies, some ratings⟩ labels perm svm ratioF inputs).metrics
          = train_models (buildFinalDataset ratings) labels perm svm) := by
  refine ⟨rfl, ?_, ?_, rfl, ?_, ?_⟩
  · unfold train_test_split
    simp only [List.length_map, List.length_take, hperm]
    omega
  · unfold train_test_split
    simp only [List.length_map, List.length_drop, hperm]
  · intro mm hmm
    simp only [train_models, List.mem_cons, List.not_mem_nil, or_false] at hmm
    rcases hmm with h | h <;> subst h <;>
      exact ⟨(precision_score_mem_unit _ _).1, (precision_score_mem_unit _ _).2,
        (recall_score_mem_unit _ _).1, (recall_score_mem_unit _ _).2⟩
  · intro movies ratings ratioF inputs
    rfl

/-! ### The pivot value semantics (claim C10) -/

/-- Claim C10 counterexample: a pivot entry is the MEAN of the ratings of
its (movieId, userId) pair, which need not be a rating value that occurs
for that pair nor 0.  In `dupRatings`, user 1 has 53 ratings (surviving the
`> 50` filter) and rated movie 1 twice, with 1 and with 2; the preprocessed
matrix entry for (movie 1, user 1) is 3/2, while the ratings occurring for
that pair are exactly 1 and 2 — so the entry is neither a rating that
occurs for the pair nor 0, contradicting the claim as stated. -/
theorem claim_C10_counterexample :
    (buildFinalDataset dupRatings).movieIds.getD 0 0 = 1
    ∧ (buildFinalDataset dupRatings).userIds = [1]
    ∧ ((buildFinalDataset dupRatings).matrix.getD 0 []).getD 0 0 = 3/2
    ∧ pairRatings dupRatings 1 1 = [1, 2]
    ∧ (1 : ℚ) ≠ 3/2 ∧ (2 : ℚ) ≠ 3/2
    ∧ (3/2 : ℚ) ≠ 0 := by
  have hpair : pairRatings dupRatings 1 1 = [1, 2] := by decide
  have hm0 : (buildFinalDataset dupRatings).movieIds.getD 0 0 = 1 := by decide
  have hu : (buildFinalDataset dupRatings).userIds = [1] := by decide
  have hentry : ((buildFinalDataset dupRatings).matrix.getD 0 []).getD 0 0 = 3/2 := by
    rw [buildFinalDataset_entry dupRatings 0 0 (by decide) (by decide), hm0,
      show (buildFinalDataset dupRatings).userIds.getD 0 0 = 1 from by decide]
    unfold pivotEntry
    rw [hpair]
    norm_num
  exact ⟨hm0, hu, hentry, hpair, by norm_num, by norm_num, by norm_num⟩

/-- Claim C10 amended: after preprocessing, no entry of the rating columns
is missing: each matrix cell is the pivot entry of its (movieId, userId)
position, which equals the arithmetic mean of the rating values occurring
for that pair in ratings.csv — in particular the rating itself when the
pair occurs exactly once — and exactly 0 when the pair does not occur; and
the dataset built at load time is used, unchanged, by model fitting,
classifier training, visualisation and every recommendation query of the
input loop. -/
theorem claim_C10_amended :
    (∀ (ratings : List RatingRow) (i j : ℕ),
        i < (buildFinalDataset ratings).movieIds.length →
        j < (buildFinalDataset ratings).userIds.length →
        ((buildFinalDataset ratings).matrix.getD i []).getD j 0
          = pivotEntry ratings ((buildFinalDataset ratings).movieIds.getD i 0)
              ((buildFinalDataset ratings).userIds.getD j 0))
    ∧ (∀ (ratings : List RatingRow) (m u : ℕ) (r0 : ℚ),
        pairRatings ratings m u = [r0] → pivotEntry ratings m u = r0)
    ∧ (∀ (ratings : List RatingRow) (m u : ℕ), pairRatings ratings m u ≠ [] →
        pivotEntry ratings m u
          = (pairRatings ratings m u).sum / (pairRatings ratings m u).length)
    ∧ (∀ (ratings : List RatingRow) (m u : ℕ), pairRatings ratings m u = [] →
        pivotEntry ratings m u = 0)
    ∧ (∀ (movies : List MovieRow) (ratings : List RatingRow) (labels : List Bool)
        (perm : List ℕ) (svm : List (List ℚ) → List Bool → List (List ℚ) → List Bool)
        (ratioF : String → String → ℚ) (inputs : List String),
        main_run ⟨some movies, some ratings⟩ labels perm svm ratioF inputs
          = ⟨false, true, train_models (buildFinalDataset ratings) labels perm svm,
              processQueries ratioF movies (buildFinalDataset ratings)
                (buildFinalDataset ratings).matrix inputs⟩) := by
  refine ⟨buildFinalDataset_entry, ?_, ?_, ?_, ?_⟩
  · intro ratings m u r0 h
    unfold pivotEntry
    rw [h]
    simp
  · intro ratings m u h
    unfold pivotEntry
    rw [if_neg (fun h0 => h (List.length_eq_zero.mp h0))]
  · intro ratings m u h
    unfold pivotEntry
    rw [if_pos (by rw [h]; rfl)]
  · intro movies ratings labels perm svm ratioF inputs
    rfl

/-! ### Witnesses: the claim theorems instantiated at concrete data -/

/-- Witness for C1 on the three-movie example, one recommendation. -/
theorem claim_C1_witness :
    ∃ pairs : List (ℕ × ℚ),
      get_movie_recommendation exRatio "A" exMovies exFinal exFinal.matrix 1
        = ⟨.ok pairs ((List.range' 1 1).zip
            (pairs.map (fun p => (titleAt exMovies exFinal p.1, p.2))))
            (decide (2 ≤ 1)), 1⟩
      ∧ pairs.length = 1
      ∧ (pairs.map Prod.fst).Nodup
      ∧ (∀ p ∈ pairs, p.1 < exFinal.matrix.length
          ∧ p.1 ≠ exFinal.movieIds.indexOf (MovieRow.mk 10 "A").movieId)
      ∧ (∀ p ∈ pairs, ∀ j, j < exFinal.matrix.length →
          j ≠ exFinal.movieIds.indexOf (MovieRow.mk 10 "A").movieId →
          j ∉ pairs.map Prod.fst →
          cosDistR (exFinal.matrix.getD
              (exFinal.movieIds.indexOf (MovieRow.mk 10 "A").movieId) [])
              (exFinal.matrix.getD p.1 [])
            ≤ cosDistR (exFinal.matrix.getD
                (exFinal.movieIds.indexOf (MovieRow.mk 10 "A").movieId) [])
                (exFinal.matrix.getD j [])) :=
  claim_C1_nearest_neighbors exRatio "A" exMovies exFinal exFinal.matrix 1 "A" [] ⟨10, "A"⟩
    exMovies_close_match (by decide) (by decide) (by decide) (by decide) (by decide)
    exFinal_selfNearest

/-- Witness for C8 on the three-movie example. -/
theorem claim_C8_witness :
    ∃ (pairs : List (ℕ × ℚ)) (df : List (ℕ × String × ℚ)),
      get_movie_recommendation exRatio "A" exMovies exFinal exFinal.matrix 1
        = ⟨.ok pairs df (decide (2 ≤ 1)), 1⟩
      ∧ df.length = 1
      ∧ df.map Prod.fst = List.range' 1 1
      ∧ exFinal.movieIds.indexOf (MovieRow.mk 10 "A").movieId ∉ pairs.map Prod.fst :=
  claim_C8_frame_shape exRatio "A" exMovies exFinal exFinal.matrix 1 "A" [] ⟨10, "A"⟩
    exMovies_close_match (by decide) (by decide) (by decide) (by decide) (by decide)
    exFinal_selfNearest

/-- Witness for C3: the Distance column of a concrete successful run is
sorted. -/
theorem claim_C3_witness :
    List.Sorted (fun a b : ℚ => a ≤ b)
      ((get_movie_recommendation exRatio "A" exMovies exFinal
        exFinal.matrix 1).result.distanceColumn) := by
  obtain ⟨pairs, heq, hlen, hrest⟩ :=
    gmr_success exRatio "A" exMovies exFinal exFinal.matrix 1 "A" [] ⟨10, "A"⟩
      exMovies_close_match (by decide) (by decide) (by decide) (by decide) (by decide)
      exFinal_selfNearest
  have h : (get_movie_recommendation exRatio "A" exMovies exFinal exFinal.matrix 1).result
      = .ok pairs ((List.range' 1 1).zip (pairs.map
          (fun p => (titleAt exMovies exFinal p.1, p.2)))) (decide (2 ≤ 1)) := by
    rw [heq]
  obtain ⟨hcol, hsorted, -⟩ :=
    claim_C3_sorted_output exRatio "A" exMovies exFinal exFinal.matrix 1 pairs _ _ h
  have hd : (get_movie_recommendation exRatio "A" exMovies exFinal
      exFinal.matrix 1).result.distanceColumn
      = ((List.range' 1 1).zip (pairs.map
          (fun p => (titleAt exMovies exFinal p.1, p.2)))).map (fun e => e.2.2) := by
    rw [heq]
    rfl
  rw [hd]
  exact hsorted

/-- Witness for C6: under a ratio giving no close title, the call reports
`noMatch` and never queries the model. -/
theorem claim_C6_witness :
    (get_close_matches zeroRatio "Q" (exMovies.map (fun m => m.title)) 1 (3/5)).length ≤ 1
    ∧ get_movie_recommendation zeroRatio "Q" exMovies exFinal exFinal.matrix 10
        = ⟨.noMatch, 0⟩ := by
  obtain ⟨h1, h2⟩ :=
    claim_C6_single_fuzzy_match zeroRatio "Q" exMovies exFinal exFinal.matrix 10
  refine ⟨h1, h2 ?_⟩
  intro t ht
  show zeroRatio "Q" t < 3/5
  rw [show zeroRatio "Q" t = 0 from rfl]
  norm_num

/-- Witness for C9: the matched movie (id 99) is not in the dataset, so the
call reports `notInDataset` without querying the model. -/
theorem claim_C9_witness :
    get_movie_recommendation exRatio "A" soloMovies exFinal exFinal.matrix 10
      = ⟨.notInDataset, 0⟩ :=
  claim_C9_unmatched_dataset exRatio "A" soloMovies exFinal exFinal.matrix 10 "A" []
    ⟨99, "A"⟩ soloMovies_close_match (by decide) (by decide)

/-- Witness for C4 on a one-rating dataset. -/
theorem claim_C4_witness :
    pivotEntry smallRatings 7 1 = 0
    ∧ (buildFinalDataset smallRatings).movieIds.Nodup
    ∧ (5 ∈ (buildFinalDataset smallRatings).movieIds
        ↔ ∃ r ∈ smallRatings, r.movieId = 5) := by
  obtain ⟨⟨hnd, hmem⟩, hu, hlen, hentry, hmiss⟩ := claim_C4_pivot_and_filter smallRatings
  exact ⟨hmiss 7 1 (by decide), hnd, hmem 5⟩

/-- Witness for C7 on the three-row example matrix. -/
theorem claim_C7_witness :
    (train_models exFinal [true, false, true] [0, 1, 2] constTrueSvm).length = 2
    ∧ (train_test_split exFinal.matrix [true, false, true] [0, 1, 2]).2.1.length
        = (exFinal.matrix.length + 4) / 5
    ∧ (train_test_split exFinal.matrix [true, false, true] [0, 1, 2]).1.length
        = exFinal.matrix.length - (exFinal.matrix.length + 4) / 5
    ∧ train_models exFinal [true, false, true] [0, 1, 2] constTrueSvm
      = [⟨"SVM",
            precision_score
              (train_test_split exFinal.matrix [true, false, true] [0, 1, 2]).2.2.2
              (constTrueSvm
                (train_test_split exFinal.matrix [true, false, true] [0, 1, 2]).1
                (train_test_split exFinal.matrix [true, false, true] [0, 1, 2]).2.2.1
                (train_test_split exFinal.matrix [true, false, true] [0, 1, 2]).2.1),
            recall_score
              (train_test_split exFinal.matrix [true, false, true] [0, 1, 2]).2.2.2
              (constTrueSvm
                (train_test_split exFinal.matrix [true, false, true] [0, 1, 2]).1
                (train_test_split exFinal.matrix [true, false, true] [0, 1, 2]).2.2.1
                (train_test_split exFinal.matrix [true, false, true] [0, 1, 2]).2.1)⟩,
         ⟨"K-NN",
            precision_score
              (train_test_split exFinal.matrix [true, false, true] [0, 1, 2]).2.2.2
              ((train_test_split exFinal.matrix [true, false, true] [0, 1, 2]).2.1.map
                (knn5Predict
                  (train_test_split exFinal.matrix [true, false, true] [0, 1, 2]).1
                  (train_test_split exFinal.matrix [true, false, true] [0, 1, 2]).2.2.1)),
            recall_score
              (train_test_split exFinal.matrix [true, false, true] [0, 1, 2]).2.2.2
              ((train_test_split exFinal.matrix [true, false, true] [0, 1, 2]).2.1.map
                (knn5Predict
                  (train_test_split exFinal.matrix [true, false, true] [0, 1, 2]).1
                  (train_test_split exFinal.matrix [true, false, true] [0, 1, 2]).2.2.1))⟩]
    ∧ (∀ mm ∈ train_models exFinal [true, false, true] [0, 1, 2] constTrueSvm,
        0 ≤ mm.precisionVal ∧ mm.precisionVal ≤ 1 ∧ 0 ≤ mm.recallVal ∧ mm.recallVal ≤ 1)
    ∧ (∀ (movies : List MovieRow) (ratings : List RatingRow)
        (ratioF : String → String → ℚ) (inputs : List String),
        (main_run ⟨some movies, some ratings⟩ [true, false, true] [0, 1, 2]
            constTrueSvm ratioF inputs).metrics
          = train_models (buildFinalDataset ratings) [true, false, true] [0, 1, 2]
              constTrueSvm) :=
  claim_C7_two_classifiers exFinal [true, false, true] [0, 1, 2] constTrueSvm rfl

/-- Witness for the amended C2: a missing-file run and a concrete
successful recommendation run exercising the variance catch. -/
theorem claim_C2_amended_witness :
    (load_and_preprocess_data ⟨none, none⟩ = none
      ↔ ((⟨none, none⟩ : Files).moviesCsv = none
          ∨ (⟨none, none⟩ : Files).ratingsCsv = none))
    ∧ main_run ⟨none, none⟩ [] [] constTrueSvm exRatio [] = ⟨true, false, [], []⟩
    ∧ ∃ (pairs : List (ℕ × ℚ)) (df : List (ℕ × String × ℚ)) (vo : Bool),
        (get_movie_recommendation exRatio "A" exMovies exFinal exFinal.matrix 1).result
          = .ok pairs df vo
        ∧ (vo = false ↔ variance (pairs.map (fun p => p.2)) = Except.error ()) := by
  obtain ⟨pairs, heq, hlen, hrest⟩ :=
    gmr_success exRatio "A" exMovies exFinal exFinal.matrix 1 "A" [] ⟨10, "A"⟩
      exMovies_close_match (by decide) (by decide) (by decide) (by decide) (by decide)
      exFinal_selfNearest
  have h : (get_movie_recommendation exRatio "A" exMovies exFinal exFinal.matrix 1).result
      = .ok pairs ((List.range' 1 1).zip (pairs.map
          (fun p => (titleAt exMovies exFinal p.1, p.2)))) (decide (2 ≤ 1)) := by
    rw [heq]
  exact ⟨claim_C2_amended.1 ⟨none, none⟩,
    claim_C2_amended.2.1 ⟨none, none⟩ [] [] constTrueSvm exRatio [] rfl,
    pairs, _, _, h,
    claim_C2_amended.2.2 exRatio "A" exMovies exFinal exFinal.matrix 1 pairs _ _ h⟩

/-- Witness for the amended C10 on a one-rating dataset. -/
theorem claim_C10_amended_witness :
    pivotEntry smallRatings 5 1 = 4
    ∧ pivotEntry smallRatings 9 9 = 0
    ∧ main_run ⟨some exMovies, some smallRatings⟩ [] [] constTrueSvm exRatio []
        = ⟨false, true, train_models (buildFinalDataset smallRatings) [] [] constTrueSvm,
            processQueries exRatio exMovies (buildFinalDataset smallRatings)
              (buildFinalDataset smallRatings).matrix []⟩ :=
  ⟨claim_C10_amended.2.1 smallRatings 5 1 4 (by decide),
   claim_C10_amended.2.2.2.1 smallRatings 9 9 (by decide),
   claim_C10_amended.2.2.2.2 exMovies smallRatings [] [] constTrueSvm exRatio []⟩

end MovieRec
